import Mathlib

/-!
Verification of the batch address-verification pipeline in `src/app.py`
(`check_address_on_cha_map`, `process_spreadsheet`, `process_file`) against its
natural-language specification.

The Python code is shallowly embedded: pandas cells become an inductive `Cell`
type, the external browser session driven by `check_address_on_cha_map` is
abstracted as a per-call environment `MapEnv` recording what the external
world does (raise, hide the search box, report a result count), wall-clock
time is a natural-number second counter advanced by `time.sleep` and by the
duration of each external lookup, and `datetime.now()` is an injected clock.
All definitions are computable so that concrete runs can be evaluated.
-/

/-- A pandas cell as far as the pipeline observes it: either a missing value
(`NaN`) or a value whose `str()` rendering is the given string.  `str()` of a
float NaN in Python is the literal string `"nan"`. -/
inductive Cell where
  | nan : Cell
  | str : String → Cell
deriving DecidableEq, Repr, BEq

/-- Python `str(...)` applied to a cell (src/app.py:125 `address = str(row[address_col])`). -/
def pyStr : Cell → String
  | Cell.nan => "nan"
  | Cell.str s => s

/-- `pd.isna` applied to a value that is already a Python `str`
(src/app.py:128): pandas never treats a string as missing, so this is
constantly `false` — the branch is dead code after the `str()` conversion. -/
def pdIsnaStr (_ : String) : Bool := false

/-- The address text of a row: `str(row[address_col])` (src/app.py:125).
Tables read by pandas are rectangular, so the default is never reached when
the column index is in range. -/
def addressOf (c : Nat) (r : List Cell) : String := pyStr (r.getD c Cell.nan)

/-- Python `str.strip()`: drop leading and trailing whitespace. -/
def pyStrip (s : String) : String :=
  String.mk (((s.data.dropWhile Char.isWhitespace).reverse.dropWhile
    Char.isWhitespace).reverse)

/-- The skip test of src/app.py:128:
`if pd.isna(address) or address.strip() == ''`. -/
def rowIsBlank (c : Nat) (r : List Cell) : Bool :=
  pdIsnaStr (addressOf c r) || pyStrip (addressOf c r) == ""

/-- What the external world (the Playwright session of src/app.py:28-93) does
for one call of `check_address_on_cha_map`:
* `raises = some msg`: some step of the session raises an exception rendering
  as `msg`, caught by the outer `except Exception` (src/app.py:92);
* `searchBoxFound`: whether any candidate selector yields a visible search box
  (src/app.py:49-58);
* `resultCount = some n`: the `[class*="result"], [class*="feature"]` locator
  count (src/app.py:80); `none` means counting raised and the inner bare
  `except: pass` (src/app.py:85-86) left `is_mobility` at `False`. -/
structure MapEnv where
  raises : Option String
  searchBoxFound : Bool
  resultCount : Option Nat
deriving Repr

/-- Shallow embedding of `check_address_on_cha_map` (src/app.py:23-93).
Returns `(is_mobility_area, status_message)`.  An exception anywhere in the
session is caught by the outer handler and becomes
`(False, "Error: " ++ msg)`; a missing search box returns
`(False, "Could not find search box on map")`; otherwise `is_mobility` is
`True` exactly when the result-element count exists and is positive, and the
status is `"Successfully checked"`. -/
def check_address_on_cha_map (env : MapEnv) (address : String) : Bool × String :=
  match env.raises with
  | some msg => (false, "Error: " ++ msg)
  | none =>
    if env.searchBoxFound = false then
      (false, "Could not find search box on map")
    else
      let is_mobility :=
        match env.resultCount with
        | some n => decide (0 < n)
        | none => false
      (is_mobility, "Successfully checked")

/-- The decimal digit character of `n % 10`. -/
def digitChar (n : Nat) : Char :=
  match n % 10 with
  | 0 => '0' | 1 => '1' | 2 => '2' | 3 => '3' | 4 => '4'
  | 5 => '5' | 6 => '6' | 7 => '7' | 8 => '8' | _ => '9'

/-- Two-digit zero-padded rendering, the `strftime` fields `%m %d %H %M %S`
(all below 100 for `datetime` values). -/
def fmt2 (n : Nat) : String :=
  String.mk [digitChar (n / 10), digitChar n]

/-- Four-digit rendering of the `strftime` field `%Y`; agrees with Python for
the years `datetime.now()` can produce in this era (1000-9999). -/
def fmt4 (n : Nat) : String :=
  String.mk [digitChar (n / 1000), digitChar (n / 100), digitChar (n / 10), digitChar n]

/-- The fields of a Python `datetime` that
`strftime('%Y-%m-%d %H:%M:%S')` reads. -/
structure PyDateTime where
  year : Nat
  month : Nat
  day : Nat
  hour : Nat
  minute : Nat
  second : Nat
deriving Repr

/-- `datetime.strftime('%Y-%m-%d %H:%M:%S')` (src/app.py:137). -/
def fmtTimestamp (d : PyDateTime) : String :=
  fmt4 d.year ++ "-" ++ fmt2 d.month ++ "-" ++ fmt2 d.day ++ " " ++
    fmt2 d.hour ++ ":" ++ fmt2 d.minute ++ ":" ++ fmt2 d.second

/-- Checks that a string has the shape `YYYY-MM-DD HH:MM:SS`: 19 characters,
digits in the date/time positions, the literal separators in between. -/
def isTimestampShape (s : String) : Bool :=
  match s.data with
  | [y1, y2, y3, y4, '-', m1, m2, '-', d1, d2, ' ',
     h1, h2, ':', n1, n2, ':', s1, s2] =>
      [y1, y2, y3, y4, m1, m2, d1, d2, h1, h2, n1, n2, s1, s2].all Char.isDigit
  | _ => false

/-- Does `needle` occur at the head of `hay`? -/
def matchesAt : List Char → List Char → Bool
  | [], _ => true
  | _ :: _, [] => false
  | c :: cs, d :: ds => c == d && matchesAt cs ds

/-- Does `needle` occur anywhere in `hay`?  Embeds the Python substring test
`term in col.lower()`. -/
def hasSub (needle : List Char) : List Char → Bool
  | [] => matchesAt needle []
  | d :: ds => matchesAt needle (d :: ds) || hasSub needle ds

/-- Python `str.lower()`, as the character list the substring test scans. -/
def pyLowerData (s : String) : List Char := s.data.map Char.toLower

/-- The header test of src/app.py:108:
`any(term in col.lower() for term in ['address', 'street', 'location'])`. -/
def colMatches (col : String) : Bool :=
  ["address", "street", "location"].any (fun term => hasSub term.data (pyLowerData col))

/-- The loop of src/app.py:107-110: scan the headers in order and return the
position of the first one matching `colMatches`, `none` if no header
matches. -/
def findMatchIdx : List String → Option Nat
  | [] => none
  | col :: rest =>
    if colMatches col then some 0 else (findMatchIdx rest).map (· + 1)

/-- Address-column selection (src/app.py:106-114): the first header matching
`colMatches`, else column 0 (`df.columns[0]`). -/
def findAddressCol (headers : List String) : Nat :=
  (findMatchIdx headers).getD 0

/-- An in-memory table: the header row and the data rows, in order. -/
structure Table where
  headers : List String
  rows : List (List Cell)
deriving Repr

/-- Everything the processing loop takes from the outside world, indexed by
the (0-based) row position: the external map's behaviour for that row's
lookup, the lookup's duration in seconds, and the `datetime.now()` value read
when that row's result is recorded. -/
structure ProcEnv where
  mapEnv : Nat → MapEnv
  lookupDur : Nat → Nat
  now : Nat → PyDateTime

/-- One invocation of `check_address_on_cha_map`, with the argument it was
given and the clock at its start and at its completion. -/
structure LookupEvent where
  address : String
  startTime : Nat
  endTime : Nat
deriving DecidableEq, Repr

/-- The observable outcome of one run of the processing loop: the annotated
output rows, the argument pairs passed to `progress_callback` in order, the
`check_address_on_cha_map` invocations in order, and the clock when the loop
finishes. -/
structure ProcTrace where
  outRows : List (List Cell)
  progressCalls : List (Nat × Nat)
  lookupCalls : List LookupEvent
  endTime : Nat
deriving Repr

/-- The loop of src/app.py:124-144 over the remaining rows.  `c` is the
address column, `total` is `len(df)` (computed before the loop), `idx` the
position of the first remaining row, `time` the clock on entering the
iteration.  A blank address (src/app.py:128-130) only sets
`Check_Status = 'Empty address'` and `continue`s — no lookup, no progress
callback, no sleep.  Otherwise the lookup runs (taking `lookupDur idx`
seconds), the three result cells are written, the progress callback receives
`(idx + 1, total)`, and `time.sleep(2)` advances the clock by 2. -/
def processRows (env : ProcEnv) (c total : Nat) :
    List (List Cell) → Nat → Nat → ProcTrace
  | [], _, time => ⟨[], [], [], time⟩
  | r :: rest, idx, time =>
    if rowIsBlank c r then
      let t := processRows env c total rest (idx + 1) time
      ⟨(r ++ [Cell.str "", Cell.str "Empty address", Cell.str ""]) :: t.outRows,
        t.progressCalls, t.lookupCalls, t.endTime⟩
    else
      let address := addressOf c r
      let lookupEnd := time + env.lookupDur idx
      let res := check_address_on_cha_map (env.mapEnv idx) address
      let outRow := r ++
        [Cell.str (if res.1 then "YES" else "NO"),
         Cell.str res.2,
         Cell.str (fmtTimestamp (env.now idx))]
      let t := processRows env c total rest (idx + 1) (lookupEnd + 2)
      ⟨outRow :: t.outRows,
        (idx + 1, total) :: t.progressCalls,
        ⟨address, time, lookupEnd⟩ :: t.lookupCalls,
        t.endTime⟩

/-- The full trace of `process_spreadsheet` (src/app.py:95-146) on a table
already in memory: resolve the address column, then run the loop from row 0
at clock 0. -/
def runTrace (env : ProcEnv) (tb : Table) : ProcTrace :=
  processRows env (findAddressCol tb.headers) tb.rows.length tb.rows 0 0

/-- The table returned by `process_spreadsheet`: the original headers with
`Is_Mobility_Area`, `Check_Status`, `Checked_At` appended
(src/app.py:117-119), and the annotated rows. -/
def process_spreadsheet (env : ProcEnv) (tb : Table) : Table :=
  ⟨tb.headers ++ ["Is_Mobility_Area", "Check_Status", "Checked_At"],
    (runTrace env tb).outRows⟩

/-- `len(result_df[result_df['Is_Mobility_Area'] == v])` (src/app.py:199-200):
the number of output rows whose `Is_Mobility_Area` cell — at position
`origCols`, the first appended column — equals `v`. -/
def countClass (origCols : Nat) (v : String) (rows : List (List Cell)) : Nat :=
  rows.countP (fun r => r.getD origCols (Cell.str "") == Cell.str v)

/-- The JSON summary of src/app.py:202-208. -/
structure RunSummary where
  total_addresses : Nat
  mobility_areas : Nat
  non_mobility_areas : Nat
deriving DecidableEq, Repr

/-- What the outside world does for one `process_file` request: the result of
reading the uploaded file (a table, or the exception message of an unreadable
or column-free file — `pd.read_csv`/`pd.read_excel`/`df.columns[0]` raising),
whether persisting the result file succeeds, and the processing environment. -/
structure FileEnv where
  readResult : Except String Table
  writeOk : Bool
  penv : ProcEnv

/-- The response of the `process_file` route: either the success JSON or an
`{'error': ...}` response. -/
structure FileOutcome where
  resp : Except String RunSummary
  persisted : Option Table

/-- Shallow embedding of `process_file` (src/app.py:179-211).  Reading or
processing the spreadsheet raising is caught by the `except` at line 210 and
becomes an error response; the result file is persisted (modelled as an
atomic write) only after `process_spreadsheet` has returned, i.e. after every
row has been processed; a failing write is likewise caught and yields an
error response with no persisted file; on success the counts of
src/app.py:199-200 are returned. -/
def process_file (fe : FileEnv) : FileOutcome :=
  match fe.readResult with
  | Except.error e => ⟨Except.error e, none⟩
  | Except.ok tb =>
    if tb.headers.isEmpty then
      ⟨Except.error "index 0 is out of bounds", none⟩
    else
      let out := process_spreadsheet fe.penv tb
      if fe.writeOk then
        ⟨Except.ok
          ⟨out.rows.length,
            countClass tb.headers.length "YES" out.rows,
            countClass tb.headers.length "NO" out.rows⟩,
          some out⟩
      else ⟨Except.error "write failed", none⟩

/-! ## Concrete fixtures used by witnesses and counterexamples -/

/-- A processing environment in which every lookup succeeds and finds one
result element, each lookup takes 3 seconds, and the clock reads a fixed
date. -/
def envOKc : ProcEnv :=
  ⟨fun _ => ⟨none, true, some 1⟩, fun _ => 3, fun _ => ⟨2026, 10, 12, 9, 5, 3⟩⟩

/-- A processing environment in which every lookup raises a timeout. -/
def envFailC : ProcEnv :=
  ⟨fun _ => ⟨some "timeout", true, some 1⟩, fun _ => 3,
    fun _ => ⟨2026, 10, 12, 9, 5, 3⟩⟩

/-- Two non-blank address rows. -/
def tbTwoAddr : Table := ⟨["Address"], [[Cell.str "123 Main St"], [Cell.str "456 Oak Ave"]]⟩

/-- A blank-address row followed by a non-blank one, with a leading
non-address column. -/
def tbMixed : Table :=
  ⟨["Name", "Address"], [[Cell.str "a", Cell.str " "], [Cell.str "b", Cell.str "456 Oak"]]⟩

/-- One non-blank address row. -/
def tbOneAddr : Table := ⟨["Address"], [[Cell.str "x"]]⟩

/-- One row whose address cell is a missing value. -/
def tbNanRow : Table := ⟨["Address"], [[Cell.nan]]⟩

/-- One row whose address cell is whitespace only. -/
def tbBlankRow : Table := ⟨["Address"], [[Cell.str " "]]⟩

/-! ## Helper lemmas about the processing loop -/

/-- The output row the loop writes for a row sitting at position `pos`. -/
def outRowFor (env : ProcEnv) (c pos : Nat) (r : List Cell) : List Cell :=
  if rowIsBlank c r then
    r ++ [Cell.str "", Cell.str "Empty address", Cell.str ""]
  else
    let res := check_address_on_cha_map (env.mapEnv pos) (addressOf c r)
    r ++ [Cell.str (if res.1 then "YES" else "NO"), Cell.str res.2,
          Cell.str (fmtTimestamp (env.now pos))]

/-- Consecutive lookup invocations are spaced: each one starts no earlier
than 2 seconds after the previous one completed. -/
def spaced : List LookupEvent → Prop
  | [] => True
  | [_] => True
  | a :: b :: rest => a.endTime + 2 ≤ b.startTime ∧ spaced (b :: rest)

/-- The default event used with `List.getD` on lookup traces. -/
def noEvent : LookupEvent := ⟨"", 0, 0⟩

theorem processRows_outRows_length (env : ProcEnv) (c total : Nat) :
    ∀ (rows : List (List Cell)) (idx time : Nat),
      (processRows env c total rows idx time).outRows.length = rows.length := by
  intro rows
  induction rows with
  | nil => intro idx time; rfl
  | cons r rest ih =>
    intro idx time
    by_cases hb : rowIsBlank c r
    · simp [processRows, hb, ih]
    · simp [processRows, hb, ih]

theorem processRows_outRows_getD (env : ProcEnv) (c total : Nat) :
    ∀ (rows : List (List Cell)) (idx time i : Nat), i < rows.length →
      (processRows env c total rows idx time).outRows.getD i [] =
        outRowFor env c (idx + i) (rows.getD i []) := by
  intro rows
  induction rows with
  | nil => intro idx time i h; exact absurd h (by simp)
  | cons r rest ih =>
    intro idx time i h
    by_cases hb : rowIsBlank c r
    · cases i with
      | zero => simp [processRows, hb, outRowFor]
      | succ j =>
        have hj : j < rest.length := by simpa using h
        simp only [processRows]
        rw [if_pos hb]
        simp only [List.getD_cons_succ]
        rw [ih (idx + 1) time j hj]
        congr 1
        omega
    · cases i with
      | zero => simp [processRows, hb, outRowFor]
      | succ j =>
        have hj : j < rest.length := by simpa using h
        simp only [processRows]
        rw [if_neg hb]
        simp only [List.getD_cons_succ]
        rw [ih (idx + 1) (time + env.lookupDur idx + 2) j hj]
        congr 1
        omega

theorem processRows_lookup_addresses (env : ProcEnv) (c total : Nat) :
    ∀ (rows : List (List Cell)) (idx time : Nat),
      (processRows env c total rows idx time).lookupCalls.map (fun e => e.address) =
        (rows.filter (fun r => !rowIsBlank c r)).map (addressOf c) := by
  intro rows
  induction rows with
  | nil => intro idx time; rfl
  | cons r rest ih =>
    intro idx time
    by_cases hb : rowIsBlank c r
    · simp [processRows, hb, ih]
    · simp [processRows, hb, ih]

theorem processRows_progressCalls (env : ProcEnv) (c total : Nat) :
    ∀ (rows : List (List Cell)) (idx time : Nat),
      (processRows env c total rows idx time).progressCalls =
        ((List.enumFrom idx rows).filter (fun p => !rowIsBlank c p.2)).map
          (fun p => (p.1 + 1, total)) := by
  intro rows
  induction rows with
  | nil => intro idx time; rfl
  | cons r rest ih =>
    intro idx time
    by_cases hb : rowIsBlank c r
    · simp [processRows, hb, ih, List.enumFrom_cons]
    · simp [processRows, hb, ih, List.enumFrom_cons]

theorem processRows_endTime (env : ProcEnv) (c total : Nat) :
    ∀ (rows : List (List Cell)) (idx time : Nat),
      (processRows env c total rows idx time).endTime =
        time + (((List.enumFrom idx rows).filter (fun p => !rowIsBlank c p.2)).map
          (fun p => env.lookupDur p.1 + 2)).sum := by
  intro rows
  induction rows with
  | nil => intro idx time; simp [processRows]
  | cons r rest ih =>
    intro idx time
    by_cases hb : rowIsBlank c r
    · simp [processRows, hb, ih, List.enumFrom_cons]
    · simp only [processRows, hb, if_neg, Bool.not_false, List.enumFrom_cons]
      rw [ih (idx + 1) (time + env.lookupDur idx + 2)]
      simp [List.filter_cons, hb]
      omega


theorem processRows_lookup_bounds (env : ProcEnv) (c total : Nat) :
    ∀ (rows : List (List Cell)) (idx time : Nat),
      (∀ e ∈ (processRows env c total rows idx time).lookupCalls,
        time ≤ e.startTime ∧ e.startTime ≤ e.endTime) ∧
      spaced (processRows env c total rows idx time).lookupCalls := by
  intro rows
  induction rows with
  | nil => intro idx time; exact ⟨by simp [processRows], trivial⟩
  | cons r rest ih =>
    intro idx time
    by_cases hb : rowIsBlank c r
    · simpa [processRows, hb] using ih (idx + 1) time
    · have ihr := ih (idx + 1) (time + env.lookupDur idx + 2)
      constructor
      · intro e he
        simp only [processRows] at he
        rw [if_neg hb] at he
        simp only [List.mem_cons] at he
        rcases he with rfl | he
        · exact ⟨le_refl _, Nat.le_add_right _ _⟩
        · have := ihr.1 e he
          exact ⟨by omega, this.2⟩
      · simp only [processRows]
        rw [if_neg hb]
        rcases hcalls : (processRows env c total rest (idx + 1)
            (time + env.lookupDur idx + 2)).lookupCalls with _ | ⟨b, tl⟩
        · exact trivial
        · refine ⟨?_, ?_⟩
          · have hbmem : b ∈ (processRows env c total rest (idx + 1)
                (time + env.lookupDur idx + 2)).lookupCalls := by
              rw [hcalls]; exact List.mem_cons_self _ _
            have := (ihr.1 b hbmem).1
            dsimp only
            omega
          · have := ihr.2
            rw [hcalls] at this
            exact this

theorem spaced_consecutive (l : List LookupEvent) (hs : spaced l) :
    ∀ i, i + 1 < l.length →
      (l.getD i noEvent).endTime + 2 ≤ (l.getD (i + 1) noEvent).startTime := by
  induction l with
  | nil => intro i h; exact absurd h (by simp)
  | cons a tl ih =>
    intro i h
    cases tl with
    | nil => exact absurd h (by simp)
    | cons b tl2 =>
      rcases hs with ⟨hab, hrest⟩
      cases i with
      | zero => simpa using hab
      | succ j =>
        have hj : j + 1 < (b :: tl2).length := by simpa using h
        simpa using ih hrest j hj

theorem spaced_growth (l : List LookupEvent) (hs : spaced l)
    (hmono : ∀ e ∈ l, e.startTime ≤ e.endTime) :
    ∀ j, j < l.length →
      (l.getD 0 noEvent).startTime + 2 * j ≤ (l.getD j noEvent).startTime := by
  intro j
  induction j with
  | zero => intro _; omega
  | succ k ihk =>
    intro hk1
    have hk : k < l.length := by omega
    have h1 := ihk hk
    have h2 := spaced_consecutive l hs k hk1
    have hmem : l.getD k noEvent ∈ l := by
      rw [List.getD_eq_getElem l noEvent hk]
      exact List.getElem_mem hk
    have h3 := hmono _ hmem
    omega

/-- Every digit character produced by `digitChar` is a decimal digit. -/
theorem digitChar_isDigit (n : Nat) : (digitChar n).isDigit = true := by
  unfold digitChar
  have h : n % 10 < 10 := Nat.mod_lt _ (by norm_num)
  generalize n % 10 = m at h ⊢
  interval_cases m <;> decide

/-- The `strftime('%Y-%m-%d %H:%M:%S')` rendering always has the
`YYYY-MM-DD HH:MM:SS` shape. -/
theorem isTimestampShape_fmtTimestamp (d : PyDateTime) :
    isTimestampShape (fmtTimestamp d) = true := by
  unfold fmtTimestamp fmt4 fmt2 isTimestampShape
  simp only [String.data_append]
  simp [digitChar_isDigit]

theorem findMatchIdx_some (headers : List String) (k : Nat)
    (h : findMatchIdx headers = some k) :
    k < headers.length ∧ colMatches (headers.getD k "") = true ∧
      ∀ j, j < k → colMatches (headers.getD j "") = false := by
  induction headers generalizing k with
  | nil => exact absurd h (by simp [findMatchIdx])
  | cons col rest ih =>
    by_cases hc : colMatches col
    · rw [findMatchIdx, if_pos hc] at h
      cases h
      exact ⟨by simp, by simpa using hc, fun j hj => absurd hj (by omega)⟩
    · rw [findMatchIdx, if_neg hc, Option.map_eq_some'] at h
      obtain ⟨k0, hk0, rfl⟩ := h
      obtain ⟨hlen, hmatch, hbefore⟩ := ih k0 hk0
      refine ⟨by simpa using hlen, by simpa using hmatch, ?_⟩
      intro j hj
      cases j with
      | zero => simpa using eq_false_of_ne_true hc
      | succ j0 => simpa using hbefore j0 (by omega)

theorem findMatchIdx_none (headers : List String)
    (h : findMatchIdx headers = none) :
    ∀ col ∈ headers, colMatches col = false := by
  induction headers with
  | nil => intro col hc; exact absurd hc (by simp)
  | cons col rest ih =>
    by_cases hc : colMatches col
    · rw [findMatchIdx, if_pos hc] at h
      exact absurd h (by simp)
    · intro x hx
      rcases List.mem_cons.mp hx with rfl | hx2
      · exact eq_false_of_ne_true hc
      · rw [findMatchIdx, if_neg hc, Option.map_eq_none'] at h
        exact ih h x hx2

theorem processRows_count_partition (env : ProcEnv) (c total n : Nat) :
    ∀ (rows : List (List Cell)) (idx time : Nat), (∀ r ∈ rows, r.length = n) →
      (processRows env c total rows idx time).outRows.length =
        countClass n "YES" (processRows env c total rows idx time).outRows +
        countClass n "NO" (processRows env c total rows idx time).outRows +
        countClass n "" (processRows env c total rows idx time).outRows ∧
      countClass n "" (processRows env c total rows idx time).outRows =
        rows.countP (rowIsBlank c) := by
  intro rows
  induction rows with
  | nil => intro idx time _; exact ⟨rfl, rfl⟩
  | cons r rest ih =>
    intro idx time hrect
    have hr : r.length = n := hrect r (List.mem_cons_self _ _)
    have hrest : ∀ x ∈ rest, x.length = n := fun x hx => hrect x (List.mem_cons_of_mem _ hx)
    have hcell : ∀ (m s t : Cell), (r ++ [m, s, t]).getD n (Cell.str "") = m := by
      intro m s t
      have h0 : (r ++ [m, s, t]).getD r.length (Cell.str "") = m := by
        rw [List.getD_eq_getElem _ _ (by simp)]
        simp [List.getElem_append_right]
      rwa [hr] at h0
    have e1 : (Cell.str "" == Cell.str "YES") = false := by decide
    have e2 : (Cell.str "" == Cell.str "NO") = false := by decide
    have e3 : (Cell.str "" == Cell.str "") = true := by decide
    have e4 : (Cell.str "YES" == Cell.str "YES") = true := by decide
    have e5 : (Cell.str "YES" == Cell.str "NO") = false := by decide
    have e6 : (Cell.str "YES" == Cell.str "") = false := by decide
    have e7 : (Cell.str "NO" == Cell.str "YES") = false := by decide
    have e8 : (Cell.str "NO" == Cell.str "NO") = true := by decide
    have e9 : (Cell.str "NO" == Cell.str "") = false := by decide
    by_cases hb : rowIsBlank c r
    · have ihr := ih (idx + 1) time hrest
      simp only [processRows]
      rw [if_pos hb]
      simp only [countClass, List.countP_cons, List.length_cons] at ihr ⊢
      rw [hcell]
      simp only [e1, e2, e3, hb]
      refine ⟨?_, ?_⟩
      · have h1 := ihr.1
        simp only [Bool.false_eq_true, if_false, if_true]
        omega
      · have h2 := ihr.2
        simp only [if_true]
        omega
    · have ihr := ih (idx + 1) (time + env.lookupDur idx + 2) hrest
      have hbf : rowIsBlank c r = false := eq_false_of_ne_true hb
      simp only [processRows]
      rw [if_neg hb]
      simp only [countClass, List.countP_cons, List.length_cons] at ihr ⊢
      rw [hcell]
      rcases hres : (check_address_on_cha_map (env.mapEnv idx) (addressOf c r)).1 with _ | _
      · simp only [hres, Bool.false_eq_true, if_false]
        simp only [e7, e8, e9, hbf]
        refine ⟨?_, ?_⟩
        · have h1 := ihr.1
          simp only [Bool.false_eq_true, if_false, if_true]
          omega
        · have h2 := ihr.2
          simp only [Bool.false_eq_true, if_false]
          omega
      · simp only [hres, if_true]
        simp only [e4, e5, e6, hbf]
        refine ⟨?_, ?_⟩
        · have h1 := ihr.1
          simp only [Bool.false_eq_true, if_false, if_true]
          omega
        · have h2 := ihr.2
          simp only [Bool.false_eq_true, if_false]
          omega

/-! ## Claim theorems -/

/-- C1 (counterexample): the claim says a failed lookup is recorded with a
classification that is neither `InArea` nor `NotInArea`.  On a one-row table
whose lookup raises a timeout, the code records `Is_Mobility_Area = "NO"` —
exactly the `NotInArea` marker, not the empty `Unknown` marker. -/
theorem claim_c1_counterexample :
    ((runTrace envFailC tbOneAddr).outRows.getD 0 []).getD 1 Cell.nan = Cell.str "NO" ∧
    Cell.str "NO" ≠ Cell.str "" := by decide

/-- C1 (amended): for every row whose lookup raises, the row is recorded with
`Is_Mobility_Area = "NO"` — indistinguishable from a `NotInArea` result, not a
distinct `Unknown` marker — together with the status string
`"Error: " ++ msg` describing the failure cause, and processing of the
remaining rows continues (every input row still yields an output row). -/
theorem claim_c1_failed_lookup_recorded_no (env : ProcEnv) (tb : Table)
    (i : Nat) (msg : String) (h : i < tb.rows.length)
    (hraise : (env.mapEnv i).raises = some msg)
    (hnb : rowIsBlank (findAddressCol tb.headers) (tb.rows.getD i []) = false) :
    (runTrace env tb).outRows.getD i [] =
      tb.rows.getD i [] ++
        [Cell.str "NO", Cell.str ("Error: " ++ msg),
         Cell.str (fmtTimestamp (env.now i))] ∧
    (runTrace env tb).outRows.length = tb.rows.length := by
  constructor
  · simp only [runTrace]
    rw [processRows_outRows_getD env (findAddressCol tb.headers) tb.rows.length
      tb.rows 0 0 i h, Nat.zero_add]
    unfold outRowFor
    rw [if_neg (by rw [hnb]; simp)]
    simp only [check_address_on_cha_map, hraise]
    simp
  · simp only [runTrace]
    exact processRows_outRows_length env (findAddressCol tb.headers)
      tb.rows.length tb.rows 0 0

/-- C1 witness: the amended theorem applied to a concrete one-row table whose
single lookup raises `"timeout"`. -/
theorem claim_c1_witness :
    (runTrace envFailC tbOneAddr).outRows.getD 0 [] =
      tbOneAddr.rows.getD 0 [] ++
        [Cell.str "NO", Cell.str ("Error: " ++ "timeout"),
         Cell.str (fmtTimestamp (envFailC.now 0))] :=
  (claim_c1_failed_lookup_recorded_no envFailC tbOneAddr 0 "timeout"
    (by decide) rfl (by decide)).1

/-- C2: a row whose address text is empty or whitespace-only gets
`Check_Status = "Empty address"` with empty `Is_Mobility_Area` and
`Checked_At`; lookups are issued exactly for the non-blank rows (so no
lookup is made for this row); and the elapsed time of the batch is the sum,
over the non-blank rows only, of that row's lookup duration plus the 2-second
sleep (so no rate-limit delay is spent on this row). -/
theorem claim_c2_empty_address_skips_lookup (env : ProcEnv) (tb : Table)
    (i : Nat) (h : i < tb.rows.length)
    (hblank : rowIsBlank (findAddressCol tb.headers) (tb.rows.getD i []) = true) :
    (runTrace env tb).outRows.getD i [] =
      tb.rows.getD i [] ++ [Cell.str "", Cell.str "Empty address", Cell.str ""] ∧
    (runTrace env tb).lookupCalls.map (fun e => e.address) =
      (tb.rows.filter (fun r => !rowIsBlank (findAddressCol tb.headers) r)).map
        (addressOf (findAddressCol tb.headers)) ∧
    (runTrace env tb).endTime =
      (((List.enumFrom 0 tb.rows).filter
          (fun p => !rowIsBlank (findAddressCol tb.headers) p.2)).map
        (fun p => env.lookupDur p.1 + 2)).sum := by
  refine ⟨?_, ?_, ?_⟩
  · simp only [runTrace]
    rw [processRows_outRows_getD env (findAddressCol tb.headers) tb.rows.length
      tb.rows 0 0 i h, Nat.zero_add]
    unfold outRowFor
    rw [if_pos hblank]
  · simp only [runTrace]
    exact processRows_lookup_addresses env (findAddressCol tb.headers)
      tb.rows.length tb.rows 0 0
  · simp only [runTrace]
    rw [processRows_endTime]
    simp

/-- C2 witness: the theorem applied to a concrete table whose first row has a
whitespace-only address. -/
theorem claim_c2_witness :
    (runTrace envOKc tbMixed).outRows.getD 0 [] =
      tbMixed.rows.getD 0 [] ++
        [Cell.str "", Cell.str "Empty address", Cell.str ""] :=
  (claim_c2_empty_address_skips_lookup envOKc tbMixed 0 (by decide) (by decide)).1

/-- C3 (counterexample): the claim says the progress callback fires exactly
once for every row, including skipped ones.  On a one-row table whose only
row has a whitespace address, the `continue` at src/app.py:130 jumps over the
callback: no progress call is made although one row was processed. -/
theorem claim_c3_counterexample :
    (runTrace envOKc tbBlankRow).progressCalls = [] ∧
    tbBlankRow.rows.length = 1 := by decide

/-- C3 (amended): the progress callback is invoked exactly once per row whose
address text is non-blank — in row order, with arguments
`(row position + 1, total row count)` — and is not invoked at all for rows
skipped as empty. -/
theorem claim_c3_progress_once_per_nonblank_row (env : ProcEnv) (tb : Table) :
    (runTrace env tb).progressCalls =
      ((List.enumFrom 0 tb.rows).filter
        (fun p => !rowIsBlank (findAddressCol tb.headers) p.2)).map
        (fun p => (p.1 + 1, tb.rows.length)) := by
  simp only [runTrace]
  exact processRows_progressCalls env (findAddressCol tb.headers)
    tb.rows.length tb.rows 0 0

/-- C4: for a table with at least one column, the selected address column is
a valid index, no earlier header matches one of the substrings
`address`/`street`/`location` (lower-cased), and either the selected header
matches or no header matches and index 0 is selected.  The selection is a
pure function of the header sequence, hence deterministic. -/
theorem claim_c4_address_column_selection (headers : List String)
    (hne : headers ≠ []) :
    findAddressCol headers < headers.length ∧
    (∀ j, j < findAddressCol headers → colMatches (headers.getD j "") = false) ∧
    (colMatches (headers.getD (findAddressCol headers) "") = true ∨
      ((∀ col ∈ headers, colMatches col = false) ∧ findAddressCol headers = 0)) := by
  rcases hidx : findMatchIdx headers with _ | k
  · have hall := findMatchIdx_none headers hidx
    have h0 : findAddressCol headers = 0 := by simp [findAddressCol, hidx]
    refine ⟨?_, ?_, Or.inr ⟨hall, h0⟩⟩
    · rw [h0]
      exact List.length_pos.mpr hne
    · intro j hj
      rw [h0] at hj
      exact absurd hj (by omega)
  · obtain ⟨hlen, hmatch, hbefore⟩ := findMatchIdx_some headers k hidx
    have h0 : findAddressCol headers = k := by simp [findAddressCol, hidx]
    rw [h0]
    exact ⟨hlen, hbefore, Or.inl hmatch⟩

/-- C4 witness: the theorem applied to a concrete header list in which the
second header contains `address`. -/
theorem claim_c4_witness :
    findAddressCol ["Name", "Home Address"] <
      (["Name", "Home Address"] : List String).length :=
  (claim_c4_address_column_selection ["Name", "Home Address"] (by decide)).1

/-- C5: the output table has the input headers with exactly
`Is_Mobility_Area`, `Check_Status`, `Checked_At` appended in that order; it
has exactly as many rows as the input; and every output row is the unchanged
input row with exactly three string cells appended, the last of which — the
`Checked_At` cell — has the `YYYY-MM-DD HH:MM:SS` shape whenever it is
non-empty. -/
theorem claim_c5_output_table_shape (env : ProcEnv) (tb : Table) (i : Nat)
    (h : i < tb.rows.length) :
    (process_spreadsheet env tb).headers =
      tb.headers ++ ["Is_Mobility_Area", "Check_Status", "Checked_At"] ∧
    (process_spreadsheet env tb).rows.length = tb.rows.length ∧
    ∃ m s t : String,
      (process_spreadsheet env tb).rows.getD i [] =
        tb.rows.getD i [] ++ [Cell.str m, Cell.str s, Cell.str t] ∧
      (t ≠ "" → isTimestampShape t = true) := by
  refine ⟨rfl, ?_, ?_⟩
  · simp only [process_spreadsheet, runTrace]
    exact processRows_outRows_length env (findAddressCol tb.headers)
      tb.rows.length tb.rows 0 0
  · simp only [process_spreadsheet, runTrace]
    rw [processRows_outRows_getD env (findAddressCol tb.headers) tb.rows.length
      tb.rows 0 0 i h, Nat.zero_add]
    unfold outRowFor
    by_cases hb : rowIsBlank (findAddressCol tb.headers) (tb.rows.getD i [])
    · rw [if_pos hb]
      exact ⟨"", "Empty address", "", rfl, fun hc => absurd rfl hc⟩
    · rw [if_neg hb]
      refine ⟨_, _, _, rfl, fun _ => isTimestampShape_fmtTimestamp _⟩

/-- C5 witness: the theorem applied to a concrete two-row table. -/
theorem claim_c5_witness :
    (process_spreadsheet envOKc tbTwoAddr).rows.length = tbTwoAddr.rows.length :=
  (claim_c5_output_table_shape envOKc tbTwoAddr 0 (by decide)).2.1

/-- C6: `check_address_on_cha_map` is total over every behaviour of the
external session — exceptions are absorbed by its handlers, so it always
returns a `(classification, status)` pair — and the status string is
non-empty on every path. -/
theorem claim_c6_lookup_total_nonempty_status (env : MapEnv) (address : String) :
    (check_address_on_cha_map env address).2 ≠ "" := by
  rcases env with ⟨raises, sb, rc⟩
  rcases raises with _ | msg
  · rcases sb with _ | _
    · show ("Could not find search box on map" : String) ≠ ""
      decide
    · show ("Successfully checked" : String) ≠ ""
      decide
  · show ("Error: " ++ msg : String) ≠ ""
    intro hcon
    have hd := congrArg String.data hcon
    rw [String.data_append] at hd
    exact absurd (List.append_eq_nil.mp hd).1 (by decide)

/-- C7 (counterexample): the claim says rows whose lookup failed are excluded
from both the `mobility_areas` and `non_mobility_areas` counts.  On a one-row
table whose single lookup raises a timeout, the lookup fails, yet the summary
reports `non_mobility_areas = 1`: the failed row is counted as `NO`. -/
theorem claim_c7_counterexample :
    (process_file ⟨Except.ok tbOneAddr, true, envFailC⟩).resp =
      Except.ok ⟨1, 0, 1⟩ ∧
    check_address_on_cha_map (envFailC.mapEnv 0)
      (addressOf 0 (tbOneAddr.rows.getD 0 [])) = (false, "Error: timeout") :=
  ⟨rfl, rfl⟩

/-- C7 (amended): for every completed run,
`total_addresses = mobility_areas + non_mobility_areas + (rows skipped as
empty)`: the skipped rows are exactly the ones excluded from both counts,
while rows whose lookup failed are recorded `"NO"` and therefore included in
`non_mobility_areas`. -/
theorem claim_c7_summary_partition (fe : FileEnv) (tb : Table) (s : RunSummary)
    (hread : fe.readResult = Except.ok tb)
    (hrect : ∀ r ∈ tb.rows, r.length = tb.headers.length)
    (hresp : (process_file fe).resp = Except.ok s) :
    s.total_addresses = s.mobility_areas + s.non_mobility_areas +
      tb.rows.countP (rowIsBlank (findAddressCol tb.headers)) := by
  by_cases hemp : tb.headers.isEmpty
  · simp [process_file, hread, hemp] at hresp
  · rcases hw : fe.writeOk with _ | _
    · simp [process_file, hread, hemp, hw] at hresp
    · simp only [process_file, hread, hemp, hw, Bool.false_eq_true, if_false,
        if_true, Except.ok.injEq] at hresp
      subst hresp
      have hp := processRows_count_partition fe.penv (findAddressCol tb.headers)
        tb.rows.length tb.headers.length tb.rows 0 0 hrect
      simp only [process_spreadsheet, runTrace]
      rw [hp.1, hp.2]

/-- C7 witness: the amended theorem applied to a concrete run with one
skipped row and one successful row. -/
theorem claim_c7_witness :
    (RunSummary.mk 2 1 0).total_addresses =
      (RunSummary.mk 2 1 0).mobility_areas +
        (RunSummary.mk 2 1 0).non_mobility_areas +
        tbMixed.rows.countP (rowIsBlank (findAddressCol tbMixed.headers)) :=
  claim_c7_summary_partition ⟨Except.ok tbMixed, true, envOKc⟩ tbMixed
    ⟨2, 1, 0⟩ rfl
    (by
      intro r hr
      cases hr with
      | head => decide
      | tail _ hr2 =>
        cases hr2 with
        | head => decide
        | tail _ h3 => cases h3)
    rfl

/-- C8: between any two consecutive lookups of one run, at least 2 seconds
elapse between the completion of the former and the start of the latter, and
across the run's `n` lookups the start of the last one is at least
`2 * (n - 1)` seconds after the start of the first. -/
theorem claim_c8_rate_limit_spacing (env : ProcEnv) (tb : Table) (i n : Nat)
    (hi : i + 1 < (runTrace env tb).lookupCalls.length)
    (hn : n = (runTrace env tb).lookupCalls.length) (hn1 : 1 ≤ n) :
    ((runTrace env tb).lookupCalls.getD i noEvent).endTime + 2 ≤
      ((runTrace env tb).lookupCalls.getD (i + 1) noEvent).startTime ∧
    ((runTrace env tb).lookupCalls.getD 0 noEvent).startTime + 2 * (n - 1) ≤
      ((runTrace env tb).lookupCalls.getD (n - 1) noEvent).startTime := by
  have hb := processRows_lookup_bounds env (findAddressCol tb.headers)
    tb.rows.length tb.rows 0 0
  constructor
  · exact spaced_consecutive _ hb.2 i hi
  · apply spaced_growth _ hb.2 (fun e he => (hb.1 e he).2)
    have hn2 : n = (processRows env (findAddressCol tb.headers) tb.rows.length
      tb.rows 0 0).lookupCalls.length := hn
    omega

/-- C8 witness: the theorem applied to a concrete run with two lookups. -/
theorem claim_c8_witness :
    ((runTrace envOKc tbTwoAddr).lookupCalls.getD 0 noEvent).endTime + 2 ≤
      ((runTrace envOKc tbTwoAddr).lookupCalls.getD 1 noEvent).startTime :=
  (claim_c8_rate_limit_spacing envOKc tbTwoAddr 0 2 (by decide) (by decide)
    (by decide)).1

/-- C9: every `process_file` request ends in exactly one of two ways — an
error response with no result file persisted, or a success response whose
persisted result table annotates every input row (same row count) and whose
summary counts that same total.  The result file is only written after the
whole table has been processed, so no partial table is ever persisted. -/
theorem claim_c9_all_or_nothing (fe : FileEnv) :
    (∃ e, (process_file fe).resp = Except.error e ∧
      (process_file fe).persisted = none) ∨
    (∃ tb s out, fe.readResult = Except.ok tb ∧
      (process_file fe).resp = Except.ok s ∧
      (process_file fe).persisted = some out ∧
      out.rows.length = tb.rows.length ∧
      s.total_addresses = tb.rows.length) := by
  rcases hread : fe.readResult with e | tb
  · exact Or.inl ⟨e, by simp [process_file, hread], by simp [process_file, hread]⟩
  · by_cases hemp : tb.headers.isEmpty
    · refine Or.inl ⟨"index 0 is out of bounds", ?_, ?_⟩ <;>
        simp [process_file, hread, hemp]
    · rcases hw : fe.writeOk with _ | _
      · refine Or.inl ⟨"write failed", ?_, ?_⟩ <;>
          simp [process_file, hread, hemp, hw]
      · have hlen : (process_spreadsheet fe.penv tb).rows.length = tb.rows.length := by
          simp only [process_spreadsheet, runTrace]
          exact processRows_outRows_length fe.penv (findAddressCol tb.headers)
            tb.rows.length tb.rows 0 0
        refine Or.inr ⟨tb,
          ⟨(process_spreadsheet fe.penv tb).rows.length,
            countClass tb.headers.length "YES" (process_spreadsheet fe.penv tb).rows,
            countClass tb.headers.length "NO" (process_spreadsheet fe.penv tb).rows⟩,
          process_spreadsheet fe.penv tb, rfl, ?_, ?_, hlen, hlen⟩ <;>
          simp [process_file, hread, hemp, hw]

/-- C10: a row whose address cell is a missing value is first converted by
`str()` to the literal string `"nan"`, so the blank check does not fire and
the string `"nan"` is among the addresses passed to
`check_address_on_cha_map` instead of the row being treated as empty. -/
theorem claim_c10_nan_address_checked (env : ProcEnv) (tb : Table) (i : Nat)
    (h : i < tb.rows.length)
    (hnan : (tb.rows.getD i []).getD (findAddressCol tb.headers) Cell.nan =
      Cell.nan) :
    addressOf (findAddressCol tb.headers) (tb.rows.getD i []) = "nan" ∧
    rowIsBlank (findAddressCol tb.headers) (tb.rows.getD i []) = false ∧
    "nan" ∈ (runTrace env tb).lookupCalls.map (fun e => e.address) := by
  have haddr : addressOf (findAddressCol tb.headers) (tb.rows.getD i []) = "nan" := by
    unfold addressOf
    rw [hnan]
    rfl
  have hnb : rowIsBlank (findAddressCol tb.headers) (tb.rows.getD i []) = false := by
    unfold rowIsBlank
    rw [haddr]
    decide
  refine ⟨haddr, hnb, ?_⟩
  simp only [runTrace]
  rw [processRows_lookup_addresses]
  apply List.mem_map.mpr
  refine ⟨tb.rows.getD i [], ?_, haddr⟩
  apply List.mem_filter.mpr
  constructor
  · rw [List.getD_eq_getElem _ _ h]
    exact List.getElem_mem h
  · show (!rowIsBlank (findAddressCol tb.headers) (tb.rows.getD i [])) = true
    rw [hnb]
    rfl

/-- C10 witness: the theorem applied to a concrete one-row table whose
address cell is a missing value. -/
theorem claim_c10_witness :
    addressOf (findAddressCol tbNanRow.headers) (tbNanRow.rows.getD 0 []) = "nan" :=
  (claim_c10_nan_address_checked envOKc tbNanRow 0 (by decide) (by decide)).1
